import Mathlib

/-!
Verification of the per-product forecast evaluation pipeline
(`2. Models/3. advanced/3. evaluate.py`).

The pipeline is embedded shallowly:

* a time series is a list of `(timestamp, value)` pairs in timestamp order;
* values are exact rationals (the Python code uses floats; the rational
  model is the exact semantics of the closed-form formulas);
* `calculate_metrics` mirrors the Python function of the same name.  Its
  `None` return (empty alignment) and the `KeyError` it can raise when
  `MASE` is requested without `MAE` are made explicit in `CalcResult`;
* the reported `RMSE` is `sqrt(mean(e^2))` and the reported `std` is the
  square root of the population variance.  Since `Real.sqrt` is not
  computable, the `RMSE` field of `Metrics` and the `var` field of `Agg`
  store the radicand (the mean squared error, resp. the population
  variance); theorems state the square-root relationship via `Real.sqrt`;
* a metric entry of a per-product dict is `Option (Option ℚ)`: the outer
  `Option` is key presence (the metric was requested), the inner one is the
  Python value (`none` is Python's `None`, i.e. "not computable").
-/

set_option autoImplicit false

namespace ForecastEval

/-- A time series: `(timestamp, value)` pairs, listed in timestamp order. -/
abbrev Series := List (Nat × ℚ)

/-- Look up the value stored for key `k` in an association list
(`df.loc[k]` / `dict[k]`, first match). -/
def lookupKey {α : Type} (l : List (String × α)) (k : String) : Option α :=
  (l.find? fun r => r.1 == k).map Prod.snd

/-- Look up the value at timestamp `t` in a series (index lookup). -/
def lookupTs (s : Series) (t : Nat) : Option ℚ :=
  (s.find? fun p => p.1 == t).map Prod.snd

/-- The merge `actuals.merge(predictions, left_index=True, right_index=True)`:
inner join on timestamp; each row is `(timestamp, actual, predicted)`,
in the order of `actuals`. -/
def innerJoin (actuals forecast : Series) : List (Nat × ℚ × ℚ) :=
  actuals.filterMap fun p => (lookupTs forecast p.1).map fun q => (p.1, p.2, q)

/-- The mean `np.mean` of a list of rationals (junk value `0` on the empty list;
every use below is guarded by a non-emptiness test, as in the source). -/
def listMean (l : List ℚ) : ℚ := l.sum / l.length

/-- First differences `x_i - x_{i-1}` of a list, `s.diff().dropna()`. -/
def diffs : List ℚ → List ℚ
  | a :: b :: rest => (b - a) :: diffs (b :: rest)
  | _ => []

/-- The per-product metrics dict.  Each field is `none` when the key is
absent (metric not requested), `some none` when the key maps to Python's
`None`, and `some (some v)` when it maps to the value `v`.
The `RMSE` field stores the mean squared error; the value the code reports
is its real square root (see the theorems below). -/
structure Metrics where
  RMSE : Option (Option ℚ)
  MAE : Option (Option ℚ)
  MAPE : Option (Option ℚ)
  MASE : Option (Option ℚ)
  deriving DecidableEq, Repr

/-- Dict lookup `metrics[name]`; an unknown name is never a key. -/
def Metrics.get (m : Metrics) (name : String) : Option (Option ℚ) :=
  if name = "RMSE" then m.RMSE
  else if name = "MAE" then m.MAE
  else if name = "MAPE" then m.MAPE
  else if name = "MASE" then m.MASE
  else none

/-- Python truthiness of the metrics dict (`if metrics:`). -/
def Metrics.nonempty (m : Metrics) : Bool :=
  m.RMSE.isSome || m.MAE.isSome || m.MAPE.isSome || m.MASE.isSome

/-- Outcome of `calculate_metrics`: a dict, the `None` return on empty
alignment, or the uncaught `KeyError` from `metrics['MAE']`. -/
inductive CalcResult where
  | ok (m : Metrics)
  | noData
  | keyError
  deriving DecidableEq, Repr

/-- Mean squared error over the aligned rows (the radicand of the
reported RMSE, `np.mean((y_true - y_pred) ** 2)`). -/
def rmseVal (merged : List (Nat × ℚ × ℚ)) : ℚ :=
  listMean (merged.map fun r => (r.2.1 - r.2.2) * (r.2.1 - r.2.2))

/-- The value `np.mean(np.abs(y_true - y_pred))`. -/
def maeVal (merged : List (Nat × ℚ × ℚ)) : ℚ :=
  listMean (merged.map fun r => |r.2.1 - r.2.2|)

/-- The MAPE value: restrict to rows with nonzero actual; `None` when no
such row exists (`mask_nonzero.sum() == 0`). -/
def mapeVal (merged : List (Nat × ℚ × ℚ)) : Option ℚ :=
  let nz := merged.filter fun r => r.2.1 ≠ 0
  if nz.length = 0 then none
  else some (listMean (nz.map fun r => |(r.2.1 - r.2.2) / r.2.1|) * 100)

/-- The value `np.mean(np.abs(y_true.diff().dropna()))`: `none` models the NaN that
`np.mean` yields on an empty array (fewer than 2 aligned rows). -/
def naiveError (merged : List (Nat × ℚ × ℚ)) : Option ℚ :=
  let d := diffs (merged.map fun r => r.2.1)
  if d.length = 0 then none
  else some (listMean (d.map fun x => |x|))

/-- The function `calculate_metrics(actuals, predictions, product)` from the source.
`metricsToCalculate` is the configured metric-name list.  The dict is
built key by key, guarded by membership tests exactly as in the source;
`metrics['MAE']` exists iff `'MAE'` was requested (and then holds
`maeVal`), so the `MASE` branch raises `KeyError` precisely when
`'MAE' ∉ metricsToCalculate` and the naive error is positive.
NaN comparison semantics: `naive_error > 0` is false when the naive error
is NaN (fewer than 2 aligned rows), so `MASE` is set to `None` there. -/
def calculate_metrics (actuals predictions : Series)
    (metricsToCalculate : List String) : CalcResult :=
  let merged := innerJoin actuals predictions
  if merged.length = 0 then .noData
  else
    let rmse : Option (Option ℚ) :=
      if "RMSE" ∈ metricsToCalculate then some (some (rmseVal merged)) else none
    let mae : Option (Option ℚ) :=
      if "MAE" ∈ metricsToCalculate then some (some (maeVal merged)) else none
    let mape : Option (Option ℚ) :=
      if "MAPE" ∈ metricsToCalculate then some (mapeVal merged) else none
    if "MASE" ∈ metricsToCalculate then
      match naiveError merged with
      | some nerr =>
        if 0 < nerr then
          if "MAE" ∈ metricsToCalculate then
            .ok ⟨rmse, mae, mape, some (some (maeVal merged / nerr))⟩
          else .keyError
        else .ok ⟨rmse, mae, mape, some none⟩
      | none => .ok ⟨rmse, mae, mape, some none⟩
    else .ok ⟨rmse, mae, mape, none⟩

/-- The per-product loop: for each product of the test set, look up its
predictions (a missing product raises `KeyError`, caught with a warning),
call `calculate_metrics`, and record the dict when it is truthy.  A
`None` return, an empty dict, or a caught `KeyError` all leave the
product out of `per_product_metrics`. -/
def per_product_metrics (products : List String)
    (testActuals predictions : List (String × Series))
    (metricsToCalculate : List String) : List (String × Metrics) :=
  products.filterMap fun p =>
    match lookupKey predictions p with
    | none => none
    | some pred =>
      match calculate_metrics ((lookupKey testActuals p).getD []) pred
          metricsToCalculate with
      | .ok m => if m.nonempty then some (p, m) else none
      | .noData => none
      | .keyError => none

/-- Keys of `{metric: [] for metric in metrics_to_calculate}`: first
occurrences, in order (Python dict comprehension semantics). -/
def dedupKeys (l : List String) : List String :=
  l.foldl (fun acc x => if x ∈ acc then acc else acc ++ [x]) []

/-- The list `all_metrics[name]` after the per-product loop: the non-null values of
metric `name` across the recorded products, in product order. -/
def collectValues (results : List (String × Metrics)) (name : String) :
    List ℚ :=
  results.filterMap fun r => (Metrics.get r.2 name).join

/-- One entry of `overall_metrics`.  The `var` field stores the population
variance (`np.std` squared, dividing by N); the reported `std` is its real
square root (see the theorems below). -/
structure Agg where
  mean : ℚ
  var : ℚ
  min : ℚ
  max : ℚ
  deriving DecidableEq, Repr

/-- The body of the aggregation loop: `none` when no product contributed a
value (the metric is then left out of the overall dict), otherwise mean,
population variance, min and max of the collected values. -/
def aggregate (values : List ℚ) : Option Agg :=
  match values with
  | [] => none
  | v :: rest =>
    let μ := listMean (v :: rest)
    some ⟨μ, listMean ((v :: rest).map fun x => (x - μ) * (x - μ)),
      rest.foldl min v, rest.foldl max v⟩

/-- The dict `evaluation_results["overall_metrics"]`: one entry per collected
metric name with at least one non-null value. -/
def overall_metrics (metricsToCalculate : List String)
    (perProduct : List (String × Metrics)) : List (String × Agg) :=
  (dedupKeys metricsToCalculate).filterMap fun name =>
    (aggregate (collectValues perProduct name)).map fun a => (name, a)

/-- The `evaluation_results` dict that is dumped to the report file. -/
structure Report where
  evaluated_at : String
  test_size_days : Nat
  metrics_calculated : List String
  per_product_metrics : List (String × Metrics)
  overall_metrics : List (String × Agg)
  deriving DecidableEq, Repr

/-- Assembly of `evaluation_results` from the inputs of one run:
pure data plus the two computed mappings. -/
def evaluation_results (evaluatedAt : String) (testSizeDays : Nat)
    (products : List String) (testActuals predictions : List (String × Series))
    (metricsToCalculate : List String) : Report :=
  let perProd :=
    per_product_metrics products testActuals predictions metricsToCalculate
  ⟨evaluatedAt, testSizeDays, metricsToCalculate, perProd,
    overall_metrics metricsToCalculate perProd⟩

/-- Serialization of one metric entry (`null` for Python `None`). -/
def serializeOptVal (v : Option ℚ) : String :=
  match v with
  | none => "null"
  | some q => toString q

/-- Serialization of one key of a metrics dict (empty when absent). -/
def serializeField (name : String) (v : Option (Option ℚ)) : String :=
  match v with
  | none => ""
  | some q => name ++ ": " ++ serializeOptVal q ++ ", "

/-- Serialization of a per-product metrics dict. -/
def serializeMetrics (m : Metrics) : String :=
  serializeField "RMSE" m.RMSE ++ serializeField "MAE" m.MAE ++
    serializeField "MAPE" m.MAPE ++ serializeField "MASE" m.MASE

/-- Serialization of an overall-metrics entry. -/
def serializeAgg (a : Agg) : String :=
  "mean: " ++ toString a.mean ++ ", var: " ++ toString a.var ++
    ", min: " ++ toString a.min ++ ", max: " ++ toString a.max

/-- Serialization of a keyed list of entries. -/
def serializeEntries {α : Type} (f : α → String)
    (l : List (String × α)) : String :=
  String.intercalate "; " (l.map fun e => e.1 ++ " -> " ++ f e.2)

/-- Everything of the report after the generation timestamp
(`json.dump` writes the dict keys in insertion order). -/
def serializeRest (r : Report) : String :=
  "\ntest_size_days: " ++ toString r.test_size_days ++
    "\nmetrics_calculated: " ++ String.intercalate ", " r.metrics_calculated ++
    "\nper_product_metrics: " ++
      serializeEntries serializeMetrics r.per_product_metrics ++
    "\noverall_metrics: " ++ serializeEntries serializeAgg r.overall_metrics

/-- The serialized report: the timestamp field first, then the rest. -/
def serializeReport (r : Report) : String :=
  "evaluated_at: " ++ (r.evaluated_at ++ serializeRest r)

/-! ### The concrete end-to-end scenario of the specification -/

/-- Actuals of the spec's end-to-end scenario: entity `A`, values 10, 12, 9. -/
def exampleActuals : Series := [(1, 10), (2, 12), (3, 9)]

/-- Forecast of the spec's end-to-end scenario: values 11, 11, 10. -/
def exampleForecast : Series := [(1, 11), (2, 11), (3, 10)]

/-- The naive-baseline error as the spec words it: the mean absolute first
difference of the aligned actual values, in timestamp order.  This is the
value inside the `some` branch of `naiveError`. -/
def naiveMean (actuals forecast : Series) : ℚ :=
  listMean ((diffs ((innerJoin actuals forecast).map fun r => r.2.1)).map
    fun x => |x|)

/-! ### Basic lemmas -/

theorem listMean_nonneg {l : List ℚ} (h : ∀ x ∈ l, 0 ≤ x) : 0 ≤ listMean l := by
  unfold listMean
  exact div_nonneg (List.sum_nonneg h) (Nat.cast_nonneg _)

/-- Membership in the inner join: a joined row pairs a row of `actuals`
with the forecast row at the same timestamp (forecast timestamps are
unique per the data model). -/
theorem mem_innerJoin (actuals forecast : Series)
    (hF : (forecast.map Prod.fst).Nodup) (t : Nat) (a p : ℚ) :
    (t, a, p) ∈ innerJoin actuals forecast ↔
      (t, a) ∈ actuals ∧ (t, p) ∈ forecast := by
  unfold innerJoin
  rw [List.mem_filterMap]
  constructor
  · rintro ⟨q, hq, hfq⟩
    rw [Option.map_eq_some'] at hfq
    obtain ⟨v, hv, heq⟩ := hfq
    obtain ⟨ht, ha, hp⟩ : q.1 = t ∧ q.2 = a ∧ v = p := by
      refine ⟨congrArg (fun r => r.1) heq, ?_, ?_⟩
      · exact congrArg (fun r => r.2.1) heq
      · exact congrArg (fun r => r.2.2) heq
    subst ht ha hp
    refine ⟨hq, ?_⟩
    unfold lookupTs at hv
    rw [Option.map_eq_some'] at hv
    obtain ⟨x, hx, hxv⟩ := hv
    have hmem := List.mem_of_find?_eq_some hx
    have hkey := List.find?_some hx
    simp only [beq_iff_eq] at hkey
    have : x = (q.1, v) := by
      rcases x with ⟨x1, x2⟩
      simp only at hkey hxv
      simp only [hkey, hxv]
    rwa [this] at hmem
  · rintro ⟨ha, hp⟩
    refine ⟨(t, a), ha, ?_⟩
    obtain ⟨x, hx⟩ : ∃ x, List.find? (fun r => r.1 == t) forecast = some x := by
      have hs : (List.find? (fun r => r.1 == t) forecast).isSome := by
        rw [List.find?_isSome]
        exact ⟨(t, p), hp, by simp⟩
      exact Option.isSome_iff_exists.mp hs
    have hmem := List.mem_of_find?_eq_some hx
    have hkey := List.find?_some hx
    simp only [beq_iff_eq] at hkey
    have hxp : x = (t, p) :=
      List.inj_on_of_nodup_map hF hmem hp (by simpa using hkey)
    show Option.map _ (lookupTs forecast t) = _
    unfold lookupTs
    rw [hx, hxp]
    rfl

/-- Field-by-field characterization of a successful `calculate_metrics`
run.  When the alignment is non-empty and `MAE` is requested whenever
`MASE` is, the function returns a dict whose `RMSE`, `MAE` and `MAPE`
keys are present exactly when requested, and whose `MASE` key follows the
naive-baseline rule. -/
theorem calculate_metrics_ok (actuals forecast : Series) (mtc : List String)
    (hne : innerJoin actuals forecast ≠ [])
    (hmm : "MASE" ∈ mtc → "MAE" ∈ mtc) :
    ∃ m : Metrics, calculate_metrics actuals forecast mtc = .ok m ∧
      m.RMSE = (if "RMSE" ∈ mtc then
        some (some (rmseVal (innerJoin actuals forecast))) else none) ∧
      m.MAE = (if "MAE" ∈ mtc then
        some (some (maeVal (innerJoin actuals forecast))) else none) ∧
      m.MAPE = (if "MAPE" ∈ mtc then
        some (mapeVal (innerJoin actuals forecast)) else none) ∧
      ("MASE" ∉ mtc → m.MASE = none) ∧
      ("MASE" ∈ mtc → m.MASE =
        (match naiveError (innerJoin actuals forecast) with
         | some nerr =>
           if 0 < nerr then
             some (some (maeVal (innerJoin actuals forecast) / nerr))
           else some none
         | none => some none)) := by
  unfold calculate_metrics
  rw [if_neg (by simpa using hne)]
  by_cases hmase : "MASE" ∈ mtc
  · rw [if_pos hmase]
    split
    next nerr heq =>
      by_cases hpos : 0 < nerr
      · rw [if_pos hpos, if_pos (hmm hmase)]
        refine ⟨_, rfl, rfl, rfl, rfl, fun h => absurd hmase h, fun _ => ?_⟩
        simp [heq, hpos]
      · rw [if_neg hpos]
        refine ⟨_, rfl, rfl, rfl, rfl, fun h => absurd hmase h, fun _ => ?_⟩
        simp [heq, hpos]
    next heq =>
      refine ⟨_, rfl, rfl, rfl, rfl, fun h => absurd hmase h, fun _ => ?_⟩
      simp [heq]
  · rw [if_neg hmase]
    exact ⟨_, rfl, rfl, rfl, rfl, fun _ => rfl, fun h => absurd h hmase⟩

/-- Inversion: any successful `calculate_metrics` run has a non-empty
alignment, its `RMSE`/`MAE`/`MAPE` keys are as requested, and its `MASE`
key is absent, `None`, or `MAE` divided by a positive naive error. -/
theorem calculate_metrics_ok_inv (actuals forecast : Series)
    (mtc : List String) (m : Metrics)
    (h : calculate_metrics actuals forecast mtc = .ok m) :
    innerJoin actuals forecast ≠ [] ∧
    m.RMSE = (if "RMSE" ∈ mtc then
      some (some (rmseVal (innerJoin actuals forecast))) else none) ∧
    m.MAE = (if "MAE" ∈ mtc then
      some (some (maeVal (innerJoin actuals forecast))) else none) ∧
    m.MAPE = (if "MAPE" ∈ mtc then
      some (mapeVal (innerJoin actuals forecast)) else none) ∧
    (m.MASE = none ∨ m.MASE = some none ∨
      ∃ nerr, naiveError (innerJoin actuals forecast) = some nerr ∧
        0 < nerr ∧
        m.MASE = some (some (maeVal (innerJoin actuals forecast) / nerr))) ∧
    ("MASE" ∈ mtc → (m.MASE).isSome) := by
  by_cases hne : innerJoin actuals forecast = []
  · simp only [calculate_metrics] at h
    rw [if_pos (by simp [hne])] at h
    exact absurd h (by simp)
  · simp only [calculate_metrics] at h
    rw [if_neg (by simpa using hne)] at h
    refine ⟨hne, ?_⟩
    split at h
    · split at h
      · rename_i hmase nerr hv
        split at h
        · rename_i hpos
          split at h
          · rename_i hmae
            cases h
            exact ⟨rfl, (if_pos hmae).symm, rfl,
              Or.inr (Or.inr ⟨nerr, hv, hpos, rfl⟩), fun _ => rfl⟩
          · exact absurd h (by simp)
        · cases h
          exact ⟨rfl, rfl, rfl, Or.inr (Or.inl rfl), fun _ => rfl⟩
      · cases h
        exact ⟨rfl, rfl, rfl, Or.inr (Or.inl rfl), fun _ => rfl⟩
    · rename_i hmase
      cases h
      exact ⟨rfl, rfl, rfl, Or.inl rfl, fun hc => absurd hc hmase⟩

theorem rmseVal_nonneg (merged : List (Nat × ℚ × ℚ)) : 0 ≤ rmseVal merged :=
  listMean_nonneg fun x hx => by
    obtain ⟨r, -, rfl⟩ := List.mem_map.mp hx
    exact mul_self_nonneg _

theorem maeVal_nonneg (merged : List (Nat × ℚ × ℚ)) : 0 ≤ maeVal merged :=
  listMean_nonneg fun x hx => by
    obtain ⟨r, -, rfl⟩ := List.mem_map.mp hx
    exact abs_nonneg _

theorem mapeVal_nonneg (merged : List (Nat × ℚ × ℚ)) (v : ℚ)
    (h : mapeVal merged = some v) : 0 ≤ v := by
  simp only [mapeVal] at h
  split at h
  · exact absurd h (by simp)
  · have hv := Option.some.inj h
    subst hv
    refine mul_nonneg ?_ (by norm_num)
    exact listMean_nonneg fun x hx => by
      obtain ⟨r, -, rfl⟩ := List.mem_map.mp hx
      exact abs_nonneg _

/-- Length of `diffs l` is `l.length - 1`. -/
theorem diffs_length (l : List ℚ) : (diffs l).length = l.length - 1 := by
  match l with
  | [] => rfl
  | [a] => rfl
  | a :: b :: rest =>
    show (diffs (b :: rest)).length + 1 = _
    rw [diffs_length (b :: rest)]
    simp

/-- Membership in `dedupKeys` is membership in the original list. -/
theorem mem_dedupKeys (l : List String) (a : String) :
    a ∈ dedupKeys l ↔ a ∈ l := by
  have key : ∀ (l' : List String) (acc : List String),
      a ∈ l'.foldl (fun acc x => if x ∈ acc then acc else acc ++ [x]) acc ↔
        a ∈ acc ∨ a ∈ l' := by
    intro l'
    induction l' with
    | nil => simp
    | cons y ys ih =>
      intro acc
      rw [List.foldl_cons, ih]
      by_cases hy : y ∈ acc
      · rw [if_pos hy]
        constructor
        · rintro (h | h)
          · exact Or.inl h
          · exact Or.inr (List.mem_cons_of_mem _ h)
        · rintro (h | h)
          · exact Or.inl h
          · rcases List.mem_cons.mp h with rfl | h
            · exact Or.inl hy
            · exact Or.inr h
      · rw [if_neg hy]
        constructor
        · rintro (h | h)
          · rcases List.mem_append.mp h with h | h
            · exact Or.inl h
            · exact Or.inr (List.mem_cons.mpr (Or.inl (List.mem_singleton.mp h)))
          · exact Or.inr (List.mem_cons_of_mem _ h)
        · rintro (h | h)
          · exact Or.inl (List.mem_append.mpr (Or.inl h))
          · rcases List.mem_cons.mp h with rfl | h
            · exact Or.inl (List.mem_append.mpr (Or.inr (List.mem_singleton.mpr rfl)))
            · exact Or.inr h
  rw [dedupKeys, key l []]
  simp

/-- Deduplicated keys form a duplicate-free list. -/
theorem dedupKeys_nodup (l : List String) : (dedupKeys l).Nodup := by
  have key : ∀ (l' : List String) (acc : List String), acc.Nodup →
      (l'.foldl (fun acc x => if x ∈ acc then acc else acc ++ [x]) acc).Nodup := by
    intro l'
    induction l' with
    | nil => intro acc h; exact h
    | cons y ys ih =>
      intro acc h
      rw [List.foldl_cons]
      by_cases hy : y ∈ acc
      · rw [if_pos hy]
        exact ih acc h
      · rw [if_neg hy]
        refine ih _ ?_
        rw [List.nodup_append]
        exact ⟨h, List.nodup_singleton y, by simpa using hy⟩
  exact key l [] List.nodup_nil

/-- Looking up a key misses a keyed `filterMap` when the key is absent. -/
theorem lookupKey_filterMap_of_not_mem {α : Type} (l : List String)
    (g : String → Option α) (name : String) (hmem : name ∉ l) :
    lookupKey (l.filterMap fun k => (g k).map fun a => (k, a)) name = none := by
  unfold lookupKey
  rw [List.find?_eq_none.mpr]
  · rfl
  · intro x hx
    obtain ⟨k, hk, hgk⟩ := List.mem_filterMap.mp hx
    rw [Option.map_eq_some'] at hgk
    obtain ⟨a, -, rfl⟩ := hgk
    simp only [beq_iff_eq]
    rintro rfl
    exact hmem hk

/-- Looking up a key on a keyed `filterMap` over a duplicate-free key list
returns the generator's value at the key. -/
theorem lookupKey_filterMap {α : Type} (l : List String)
    (g : String → Option α) (name : String) (hnd : l.Nodup)
    (hmem : name ∈ l) :
    lookupKey (l.filterMap fun k => (g k).map fun a => (k, a)) name =
      g name := by
  induction l with
  | nil => exact absurd hmem (List.not_mem_nil name)
  | cons k ks ih =>
    rw [List.filterMap_cons]
    rcases List.mem_cons.mp hmem with rfl | hmemks
    · have hnotks : name ∉ ks := (List.nodup_cons.mp hnd).1
      rcases hgk : g name with _ | a
      · exact lookupKey_filterMap_of_not_mem ks g name hnotks
      · show lookupKey ((name, a) ::
          List.filterMap (fun k => Option.map (fun a => (k, a)) (g k)) ks)
            name = some a
        unfold lookupKey
        rw [List.find?_cons_of_pos _ (by simp)]
        rfl
    · by_cases hkname : k = name
      · subst hkname
        exact absurd hmemks (List.nodup_cons.mp hnd).1
      · rcases hgk : g k with _ | a
        · exact ih (List.nodup_cons.mp hnd).2 hmemks
        · show lookupKey ((k, a) ::
            List.filterMap (fun k => Option.map (fun a => (k, a)) (g k)) ks)
              name = g name
          unfold lookupKey
          rw [List.find?_cons_of_neg _ (by simpa using hkname)]
          exact ih (List.nodup_cons.mp hnd).2 hmemks

/-- The overall dict at a requested metric name is exactly the aggregate
of the values collected for that name. -/
theorem lookupKey_overall_metrics (mtc : List String)
    (perProd : List (String × Metrics)) (name : String) (hmem : name ∈ mtc) :
    lookupKey (overall_metrics mtc perProd) name =
      aggregate (collectValues perProd name) :=
  lookupKey_filterMap (dedupKeys mtc) _ name (dedupKeys_nodup mtc)
    ((mem_dedupKeys mtc name).mpr hmem)

/-- The left fold of `min` is a lower bound of the starting value and the
list elements. -/
theorem foldl_min_le (rest : List ℚ) (v : ℚ) :
    ∀ x ∈ v :: rest, rest.foldl min v ≤ x := by
  induction rest generalizing v with
  | nil =>
    intro x hx
    rw [List.mem_singleton.mp hx]
    exact le_refl _
  | cons b bs ih =>
    intro x hx
    rw [List.foldl_cons]
    rcases List.mem_cons.mp hx with rfl | hx
    · exact le_trans (ih (min x b) _ (List.mem_cons_self _ _)) (min_le_left _ _)
    · rcases List.mem_cons.mp hx with rfl | hx
      · exact le_trans (ih (min v x) _ (List.mem_cons_self _ _))
          (min_le_right _ _)
      · exact ih (min v b) x (List.mem_cons_of_mem _ hx)

/-- The left fold of `min` is attained. -/
theorem foldl_min_mem (rest : List ℚ) (v : ℚ) :
    rest.foldl min v ∈ v :: rest := by
  induction rest generalizing v with
  | nil => exact List.mem_singleton.mpr rfl
  | cons b bs ih =>
    rw [List.foldl_cons]
    rcases List.mem_cons.mp (ih (min v b)) with h1 | h1
    · rw [h1]
      rcases min_choice v b with hc | hc <;> rw [hc]
      · exact List.mem_cons_self _ _
      · exact List.mem_cons_of_mem _ (List.mem_cons_self _ _)
    · exact List.mem_cons_of_mem _ (List.mem_cons_of_mem _ h1)

/-- The left fold of `max` is an upper bound of the starting value and the
list elements. -/
theorem le_foldl_max (rest : List ℚ) (v : ℚ) :
    ∀ x ∈ v :: rest, x ≤ rest.foldl max v := by
  induction rest generalizing v with
  | nil =>
    intro x hx
    rw [List.mem_singleton.mp hx]
    exact le_refl _
  | cons b bs ih =>
    intro x hx
    rw [List.foldl_cons]
    rcases List.mem_cons.mp hx with rfl | hx
    · exact le_trans (le_max_left _ _) (ih (max x b) _ (List.mem_cons_self _ _))
    · rcases List.mem_cons.mp hx with rfl | hx
      · exact le_trans (le_max_right _ _)
          (ih (max v x) _ (List.mem_cons_self _ _))
      · exact ih (max v b) x (List.mem_cons_of_mem _ hx)

/-- The left fold of `max` is attained. -/
theorem foldl_max_mem (rest : List ℚ) (v : ℚ) :
    rest.foldl max v ∈ v :: rest := by
  induction rest generalizing v with
  | nil => exact List.mem_singleton.mpr rfl
  | cons b bs ih =>
    rw [List.foldl_cons]
    rcases List.mem_cons.mp (ih (max v b)) with h1 | h1
    · rw [h1]
      rcases max_choice v b with hc | hc <;> rw [hc]
      · exact List.mem_cons_self _ _
      · exact List.mem_cons_of_mem _ (List.mem_cons_self _ _)
    · exact List.mem_cons_of_mem _ (List.mem_cons_of_mem _ h1)

/-! ### Claim theorems -/

/-- C1: for every entity, `score_entity` first inner-joins actuals and
forecast on timestamp (only timestamps present in both contribute), then
with errors `e_i = actual_i - forecast_i` over the aligned pairs returns
`RMSE = sqrt(mean(e_i^2))` and `MAE = mean(|e_i|)`; in particular for
actuals `(10, 12, 9)` and forecasts `(11, 11, 10)` at three shared
timestamps, `MAE = 1.0` and `RMSE = 1.0`. -/
theorem c1_rmse_mae_over_aligned_pairs (actuals forecast : Series)
    (mtc : List String) (hF : (forecast.map Prod.fst).Nodup)
    (hr : "RMSE" ∈ mtc) (hm : "MAE" ∈ mtc)
    (hne : innerJoin actuals forecast ≠ []) :
    (∀ t a p, (t, a, p) ∈ innerJoin actuals forecast ↔
        (t, a) ∈ actuals ∧ (t, p) ∈ forecast) ∧
    (∃ m : Metrics, calculate_metrics actuals forecast mtc = .ok m ∧
      m.MAE = some (some
        (((innerJoin actuals forecast).map fun r => |r.2.1 - r.2.2|).sum /
          (innerJoin actuals forecast).length)) ∧
      ∃ msq, m.RMSE = some (some msq) ∧
        msq = (((innerJoin actuals forecast).map fun r =>
          (r.2.1 - r.2.2) * (r.2.1 - r.2.2)).sum /
            (innerJoin actuals forecast).length)) ∧
    (∃ m₀ : Metrics,
      calculate_metrics exampleActuals exampleForecast ["RMSE", "MAE"] =
        .ok m₀ ∧
      m₀.MAE = some (some 1) ∧
      ∃ r₀, m₀.RMSE = some (some r₀) ∧ Real.sqrt r₀ = 1) := by
  refine ⟨fun t a p => mem_innerJoin actuals forecast hF t a p, ?_, ?_⟩
  · obtain ⟨m, hok, hrmse, hmae, -, -, -⟩ :=
      calculate_metrics_ok actuals forecast mtc hne (fun _ => hm)
    refine ⟨m, hok, ?_, ?_⟩
    · rw [hmae, if_pos hm]
      simp [maeVal, listMean]
    · refine ⟨rmseVal (innerJoin actuals forecast), ?_, ?_⟩
      · rw [hrmse, if_pos hr]
      · simp [rmseVal, listMean]
  · refine ⟨⟨some (some 1), some (some 1), none, none⟩, ?_, rfl, 1, rfl,
      by norm_num⟩
    simp [calculate_metrics, innerJoin, lookupTs, listMean, rmseVal, maeVal,
      mapeVal, naiveError, diffs, exampleActuals, exampleForecast]
    norm_num

/-- Witness for C1: the hypotheses hold at the spec's end-to-end scenario,
and there the theorem yields `MAE = 1` and `RMSE = sqrt 1 = 1`. -/
theorem c1_rmse_mae_over_aligned_pairs_witness :
    ((exampleForecast.map Prod.fst).Nodup ∧
      "RMSE" ∈ (["RMSE", "MAE"] : List String) ∧
      "MAE" ∈ (["RMSE", "MAE"] : List String) ∧
      innerJoin exampleActuals exampleForecast ≠ []) ∧
    (∃ m₀ : Metrics,
      calculate_metrics exampleActuals exampleForecast ["RMSE", "MAE"] =
        .ok m₀ ∧
      m₀.MAE = some (some 1) ∧
      ∃ r₀, m₀.RMSE = some (some r₀) ∧ Real.sqrt r₀ = 1) := by
  have hF : (exampleForecast.map Prod.fst).Nodup := by decide
  have hne : innerJoin exampleActuals exampleForecast ≠ [] := by
    simp [innerJoin, lookupTs, exampleActuals, exampleForecast]
  exact ⟨⟨hF, by decide, by decide, hne⟩,
    (c1_rmse_mae_over_aligned_pairs exampleActuals exampleForecast
      ["RMSE", "MAE"] hF (by decide) (by decide) hne).2.2⟩

/-- C8: for every entity scored from finite inputs, every per-entity metric
value that is present and non-null (RMSE, MAE, MAPE, MASE) is a finite
non-negative real number.  (Values are exact rationals in this model, so
finiteness is by construction; the reported RMSE is the square root of the
stored radicand and is likewise non-negative.) -/
theorem c8_metric_values_nonneg (actuals forecast : Series)
    (mtc : List String) (m : Metrics)
    (h : calculate_metrics actuals forecast mtc = .ok m) :
    (∀ v, m.RMSE = some (some v) → 0 ≤ v ∧ 0 ≤ Real.sqrt v) ∧
    (∀ v, m.MAE = some (some v) → 0 ≤ v) ∧
    (∀ v, m.MAPE = some (some v) → 0 ≤ v) ∧
    (∀ v, m.MASE = some (some v) → 0 ≤ v) := by
  obtain ⟨-, hr, hm, hp, hmase, -⟩ :=
    calculate_metrics_ok_inv actuals forecast mtc m h
  refine ⟨?_, ?_, ?_, ?_⟩
  · intro v hv
    rw [hr] at hv
    by_cases h1 : "RMSE" ∈ mtc
    · rw [if_pos h1] at hv
      simp only [Option.some.injEq] at hv
      exact hv ▸ ⟨rmseVal_nonneg _, Real.sqrt_nonneg _⟩
    · rw [if_neg h1] at hv
      exact absurd hv (by simp)
  · intro v hv
    rw [hm] at hv
    by_cases h1 : "MAE" ∈ mtc
    · rw [if_pos h1] at hv
      simp only [Option.some.injEq] at hv
      exact hv ▸ maeVal_nonneg _
    · rw [if_neg h1] at hv
      exact absurd hv (by simp)
  · intro v hv
    rw [hp] at hv
    by_cases h1 : "MAPE" ∈ mtc
    · rw [if_pos h1] at hv
      simp only [Option.some.injEq] at hv
      exact mapeVal_nonneg _ v hv
    · rw [if_neg h1] at hv
      exact absurd hv (by simp)
  · intro v hv
    rcases hmase with h0 | h0 | ⟨nerr, -, hpos, h0⟩
    · rw [h0] at hv
      exact absurd hv (by simp)
    · rw [h0] at hv
      exact absurd hv (by simp)
    · rw [h0] at hv
      simp only [Option.some.injEq] at hv
      exact hv ▸ div_nonneg (maeVal_nonneg _) hpos.le

/-- Witness for C8: at the spec's end-to-end scenario the computed RMSE
and MAE values are non-negative. -/
theorem c8_metric_values_nonneg_witness :
    calculate_metrics exampleActuals exampleForecast ["RMSE", "MAE"] =
      .ok ⟨some (some 1), some (some 1), none, none⟩ ∧
    (0 ≤ (1 : ℚ) ∧ 0 ≤ Real.sqrt (1 : ℚ)) ∧ 0 ≤ (1 : ℚ) := by
  have h : calculate_metrics exampleActuals exampleForecast ["RMSE", "MAE"] =
      .ok ⟨some (some 1), some (some 1), none, none⟩ := by
    simp [calculate_metrics, innerJoin, lookupTs, listMean, rmseVal, maeVal,
      mapeVal, naiveError, diffs, exampleActuals, exampleForecast]
    norm_num
  obtain ⟨h1, h2, -, -⟩ := c8_metric_values_nonneg exampleActuals
    exampleForecast ["RMSE", "MAE"] ⟨some (some 1), some (some 1), none, none⟩ h
  exact ⟨h, h1 1 rfl, h2 1 rfl⟩

/-- C2: for every entity with at least one aligned pair, when MASE is
requested the naive-baseline error is the mean absolute first difference of
the aligned actual values in timestamp order; if that naive error is zero
or undefined (fewer than 2 aligned points) MASE is null, and otherwise
`MASE = MAE / naive_error`. -/
theorem c2_mase_naive_baseline (actuals forecast : Series)
    (mtc : List String) (hmase : "MASE" ∈ mtc) (hmae : "MAE" ∈ mtc)
    (hne : innerJoin actuals forecast ≠ []) :
    ∃ m : Metrics, calculate_metrics actuals forecast mtc = .ok m ∧
      m.MAE = some (some (maeVal (innerJoin actuals forecast))) ∧
      ((innerJoin actuals forecast).length < 2 → m.MASE = some none) ∧
      (2 ≤ (innerJoin actuals forecast).length →
        (0 ≤ naiveMean actuals forecast) ∧
        (naiveMean actuals forecast = 0 → m.MASE = some none) ∧
        (0 < naiveMean actuals forecast → m.MASE =
          some (some (maeVal (innerJoin actuals forecast) /
            naiveMean actuals forecast)))) := by
  obtain ⟨m, hok, -, hm, -, -, hms⟩ :=
    calculate_metrics_ok actuals forecast mtc hne (fun _ => hmae)
  have hmsv := hms hmase
  refine ⟨m, hok, by rw [hm, if_pos hmae], ?_, ?_⟩
  · intro hlt
    have hd : (diffs ((innerJoin actuals forecast).map fun r => r.2.1)).length
        = 0 := by
      rw [diffs_length, List.length_map]
      omega
    have : naiveError (innerJoin actuals forecast) = none := by
      simp only [naiveError]
      rw [if_pos hd]
    rw [this] at hmsv
    exact hmsv
  · intro hge
    have hd : ¬ (diffs ((innerJoin actuals forecast).map
        fun r => r.2.1)).length = 0 := by
      rw [diffs_length, List.length_map]
      omega
    have hnerr : naiveError (innerJoin actuals forecast) =
        some (naiveMean actuals forecast) := by
      simp only [naiveError, naiveMean]
      rw [if_neg hd]
    rw [hnerr] at hmsv
    have h0 : 0 ≤ naiveMean actuals forecast :=
      listMean_nonneg fun x hx => by
        obtain ⟨r, -, rfl⟩ := List.mem_map.mp hx
        exact abs_nonneg _
    refine ⟨h0, ?_, ?_⟩
    · intro hz
      rw [hmsv]
      simp [hz]
    · intro hpos
      rw [hmsv]
      simp [hpos]

/-- Witness for C2: on aligned actuals `(10, 12, 9)` and forecasts
`(11, 11, 10)` the naive error is `(|12-10| + |9-12|)/2 = 5/2 > 0` and
`MASE = MAE / (5/2) = 2/5`. -/
theorem c2_mase_naive_baseline_witness :
    ("MASE" ∈ (["MASE", "RMSE", "MAE"] : List String) ∧
      "MAE" ∈ (["MASE", "RMSE", "MAE"] : List String) ∧
      innerJoin exampleActuals exampleForecast ≠ []) ∧
    ∃ m : Metrics,
      calculate_metrics exampleActuals exampleForecast
        ["MASE", "RMSE", "MAE"] = .ok m ∧
      m.MASE = some (some (2 / 5)) := by
  have hne : innerJoin exampleActuals exampleForecast ≠ [] := by
    simp [innerJoin, lookupTs, exampleActuals, exampleForecast]
  obtain ⟨m, hok, hmae, -, hns⟩ := c2_mase_naive_baseline exampleActuals
    exampleForecast ["MASE", "RMSE", "MAE"] (by decide) (by decide) hne
  have hlen : 2 ≤ (innerJoin exampleActuals exampleForecast).length := by
    simp [innerJoin, lookupTs, exampleActuals, exampleForecast]
  have hnm : naiveMean exampleActuals exampleForecast = 5 / 2 := by
    simp [naiveMean, innerJoin, lookupTs, diffs, listMean, exampleActuals,
      exampleForecast]
    norm_num [abs]
  have hmv : maeVal (innerJoin exampleActuals exampleForecast) = 1 := by
    simp [maeVal, innerJoin, lookupTs, listMean, exampleActuals,
      exampleForecast]
    norm_num [abs]
  refine ⟨⟨by decide, by decide, hne⟩, m, hok, ?_⟩
  have := (hns hlen).2.2 (by rw [hnm]; norm_num)
  rw [this, hnm, hmv]
  norm_num

/-- C3: for every entity with at least one aligned pair, MAPE is computed
only over the aligned pairs whose actual value is nonzero, as
`100 × mean(|e_i| / actual_i)` over that restricted subset; if every
aligned actual is zero, MAPE is null.  (Actual values are non-negative
per the data model.) -/
theorem c3_mape_nonzero_actuals (actuals forecast : Series)
    (mtc : List String) (hmape : "MAPE" ∈ mtc)
    (hmm : "MASE" ∈ mtc → "MAE" ∈ mtc)
    (hne : innerJoin actuals forecast ≠ [])
    (hnonneg : ∀ r ∈ innerJoin actuals forecast, 0 ≤ r.2.1) :
    ∃ m : Metrics, calculate_metrics actuals forecast mtc = .ok m ∧
      (((innerJoin actuals forecast).filter fun r => r.2.1 ≠ 0) = [] →
        m.MAPE = some none) ∧
      (((innerJoin actuals forecast).filter fun r => r.2.1 ≠ 0) ≠ [] →
        m.MAPE = some (some (100 * listMean
          (((innerJoin actuals forecast).filter fun r => r.2.1 ≠ 0).map
            fun r => |r.2.1 - r.2.2| / r.2.1)))) := by
  obtain ⟨m, hok, -, -, hp, -, -⟩ :=
    calculate_metrics_ok actuals forecast mtc hne hmm
  rw [if_pos hmape] at hp
  refine ⟨m, hok, ?_, ?_⟩
  · intro hz
    rw [hp]
    simp only [mapeVal]
    rw [if_pos (by rw [hz]; rfl)]
  · intro hnz
    rw [hp]
    simp only [mapeVal]
    rw [if_neg (by simpa using hnz)]
    have hmap : ((innerJoin actuals forecast).filter
          fun r => r.2.1 ≠ 0).map (fun r => |(r.2.1 - r.2.2) / r.2.1|) =
        ((innerJoin actuals forecast).filter fun r => r.2.1 ≠ 0).map
          (fun r => |r.2.1 - r.2.2| / r.2.1) := by
      refine List.map_congr_left fun r hr => ?_
      obtain ⟨hmem, hpred⟩ := List.mem_filter.mp hr
      have hne0 : r.2.1 ≠ 0 := of_decide_eq_true hpred
      have hpos : 0 < r.2.1 := lt_of_le_of_ne (hnonneg r hmem) (Ne.symm hne0)
      rw [abs_div, abs_of_pos hpos]
    rw [hmap, mul_comm]

/-- Witness for C3: with actuals `0, 2` and forecasts `5, 1`, the zero
actual is excluded and `MAPE = 100 × (|2-1|/2) = 50`; with all-zero
actuals `0, 0`, MAPE is null. -/
theorem c3_mape_nonzero_actuals_witness :
    (∃ m : Metrics, calculate_metrics [(1, 0), (2, 2)] [(1, 5), (2, 1)]
        ["MAPE"] = .ok m ∧ m.MAPE = some (some 50)) ∧
    (∃ m : Metrics, calculate_metrics [(1, 0), (2, 0)] [(1, 5), (2, 3)]
        ["MAPE"] = .ok m ∧ m.MAPE = some none) := by
  constructor
  · have hne : innerJoin [(1, 0), (2, 2)] [(1, 5), (2, 1)] ≠ [] := by
      simp [innerJoin, lookupTs]
    obtain ⟨m, hok, -, hs⟩ := c3_mape_nonzero_actuals [(1, 0), (2, 2)]
      [(1, 5), (2, 1)] ["MAPE"] (by decide) (by decide) hne
      (by intro r hr; simp [innerJoin, lookupTs] at hr; rcases hr with h | h <;>
        simp [h])
    refine ⟨m, hok, ?_⟩
    have hfil : ((innerJoin [(1, 0), (2, 2)] [(1, 5), (2, 1)]).filter
        fun r => r.2.1 ≠ 0) = [(2, 2, 1)] := by
      simp [innerJoin, lookupTs]
    rw [hs (by rw [hfil]; simp), hfil]
    norm_num [listMean, abs]
  · have hne : innerJoin [(1, 0), (2, 0)] [(1, 5), (2, 3)] ≠ [] := by
      simp [innerJoin, lookupTs]
    obtain ⟨m, hok, hz, -⟩ := c3_mape_nonzero_actuals [(1, 0), (2, 0)]
      [(1, 5), (2, 3)] ["MAPE"] (by decide) (by decide) hne
      (by intro r hr; simp [innerJoin, lookupTs] at hr; rcases hr with h | h <;>
        simp [h])
    refine ⟨m, hok, ?_⟩
    refine hz ?_
    simp [innerJoin, lookupTs]

/-- C4: for every requested metric, the overall aggregate is computed over
the non-null per-entity values only: if that collection is non-empty the
aggregate is its arithmetic mean, population standard deviation (dividing
by N, not N−1), min, and max — so a metric with exactly one non-null value
`v` aggregates to mean `v`, std `0`, min = max = `v` — and if the
collection is empty, the metric is entirely absent from the overall report.
(The `var` field is the squared standard deviation; `std = sqrt var`.) -/
theorem c4_overall_aggregate (mtc : List String)
    (perProd : List (String × Metrics)) (name : String)
    (hmem : name ∈ mtc) :
    (∀ v, v ∈ collectValues perProd name ↔
      ∃ e ∈ perProd, Metrics.get e.2 name = some (some v)) ∧
    (collectValues perProd name = [] →
      lookupKey (overall_metrics mtc perProd) name = none) ∧
    (collectValues perProd name ≠ [] →
      ∃ a : Agg, lookupKey (overall_metrics mtc perProd) name = some a ∧
        a.mean = (collectValues perProd name).sum /
          (collectValues perProd name).length ∧
        a.var = ((collectValues perProd name).map
          fun x => (x - a.mean) * (x - a.mean)).sum /
            (collectValues perProd name).length ∧
        (∀ x ∈ collectValues perProd name, a.min ≤ x ∧ x ≤ a.max) ∧
        a.min ∈ collectValues perProd name ∧
        a.max ∈ collectValues perProd name) ∧
    (∀ v, collectValues perProd name = [v] →
      lookupKey (overall_metrics mtc perProd) name = some ⟨v, 0, v, v⟩ ∧
        Real.sqrt ((0 : ℚ) : ℝ) = 0) := by
  have hagg := lookupKey_overall_metrics mtc perProd name hmem
  refine ⟨?_, ?_, ?_, ?_⟩
  · intro v
    unfold collectValues
    rw [List.mem_filterMap]
    constructor
    · rintro ⟨e, he, hj⟩
      exact ⟨e, he, Option.join_eq_some.mp hj⟩
    · rintro ⟨e, he, hg⟩
      exact ⟨e, he, Option.join_eq_some.mpr hg⟩
  · intro hempty
    rw [hagg, hempty]
    rfl
  · intro hne
    obtain ⟨v, rest, hcons⟩ := List.exists_cons_of_ne_nil hne
    rw [hagg, hcons]
    refine ⟨_, rfl, ?_, ?_, ?_, ?_, ?_⟩
    · show listMean (v :: rest) = _
      rw [listMean]
    · show listMean _ = _
      rw [listMean, List.length_map]
    · intro x hx
      exact ⟨foldl_min_le rest v x hx, le_foldl_max rest v x hx⟩
    · exact foldl_min_mem rest v
    · exact foldl_max_mem rest v
  · intro v hv
    rw [hagg, hv]
    constructor
    · show some _ = _
      simp [listMean]
    · simp

/-- Witness for C4: with a single product whose `MAE` is `1`, the overall
`MAE` aggregate is mean `1`, variance `0` (std `0`), min = max = `1`; no
product has a non-null `MASE`, so `MASE` is absent from the overall dict. -/
theorem c4_overall_aggregate_witness :
    lookupKey (overall_metrics ["MAE", "MASE"]
      [("A", ⟨none, some (some 1), none, some none⟩)]) "MAE" =
        some ⟨1, 0, 1, 1⟩ ∧
    Real.sqrt ((0 : ℚ) : ℝ) = 0 ∧
    lookupKey (overall_metrics ["MAE", "MASE"]
      [("A", ⟨none, some (some 1), none, some none⟩)]) "MASE" = none := by
  have h1 := (c4_overall_aggregate ["MAE", "MASE"]
    [("A", ⟨none, some (some 1), none, some none⟩)] "MAE" (by decide)).2.2.2
    1 (by simp [collectValues, Metrics.get])
  have h2 := (c4_overall_aggregate ["MAE", "MASE"]
    [("A", ⟨none, some (some 1), none, some none⟩)] "MASE" (by decide)).2.1
    (by simp [collectValues, Metrics.get])
  exact ⟨h1.1, h1.2, h2⟩

/-- An empty alignment makes `calculate_metrics` return `None`. -/
theorem calculate_metrics_noData (actuals forecast : Series)
    (mtc : List String) (hempty : innerJoin actuals forecast = []) :
    calculate_metrics actuals forecast mtc = .noData := by
  unfold calculate_metrics
  rw [if_pos (by simp [hempty])]

/-- Every recorded per-product entry is keyed by one of the products and
has a predictions entry. -/
theorem mem_per_product_metrics (products : List String)
    (testActuals predictions : List (String × Series)) (mtc : List String)
    (x : String × Metrics)
    (hx : x ∈ per_product_metrics products testActuals predictions mtc) :
    x.1 ∈ products ∧ ∃ pred, lookupKey predictions x.1 = some pred ∧
      calculate_metrics ((lookupKey testActuals x.1).getD []) pred mtc =
        .ok x.2 := by
  obtain ⟨q, hq, hfq⟩ := List.mem_filterMap.mp hx
  rcases h1 : lookupKey predictions q with _ | pred
  · rw [h1] at hfq
    exact absurd hfq (by simp)
  · simp only [h1] at hfq
    rcases h2 : calculate_metrics ((lookupKey testActuals q).getD []) pred
        mtc with m | _ | _
    · simp only [h2] at hfq
      by_cases h3 : m.nonempty
      · rw [if_pos h3] at hfq
        obtain rfl : (q, m) = x := Option.some.inj hfq
        exact ⟨hq, pred, h1, h2⟩
      · rw [if_neg h3] at hfq
        exact absurd hfq (by simp)
    · simp only [h2] at hfq
      exact absurd hfq (by simp)
    · simp only [h2] at hfq
      exact absurd hfq (by simp)

/-- C9: report assembly is deterministic up to the generation timestamp:
the serialized report is a fixed prefix, the timestamp, and a tail that is
a function of the remaining inputs only, so two runs of the assembly on
identical inputs produce byte-identical serialized reports except for the
generation timestamp field, and the non-timestamp report fields are equal
across runs. -/
theorem c9_report_deterministic_up_to_timestamp (testSizeDays : Nat)
    (products : List String)
    (testActuals predictions : List (String × Series)) (mtc : List String) :
    (∃ tail : String, ∀ t : String,
      serializeReport (evaluation_results t testSizeDays products testActuals
        predictions mtc) = "evaluated_at: " ++ (t ++ tail)) ∧
    (∀ t₁ t₂ : String,
      (evaluation_results t₁ testSizeDays products testActuals predictions
        mtc).test_size_days =
      (evaluation_results t₂ testSizeDays products testActuals predictions
        mtc).test_size_days ∧
      (evaluation_results t₁ testSizeDays products testActuals predictions
        mtc).metrics_calculated =
      (evaluation_results t₂ testSizeDays products testActuals predictions
        mtc).metrics_calculated ∧
      (evaluation_results t₁ testSizeDays products testActuals predictions
        mtc).per_product_metrics =
      (evaluation_results t₂ testSizeDays products testActuals predictions
        mtc).per_product_metrics ∧
      (evaluation_results t₁ testSizeDays products testActuals predictions
        mtc).overall_metrics =
      (evaluation_results t₂ testSizeDays products testActuals predictions
        mtc).overall_metrics ∧
      (evaluation_results t₁ testSizeDays products testActuals predictions
        mtc).evaluated_at = t₁) := by
  refine ⟨⟨serializeRest (evaluation_results "" testSizeDays products
    testActuals predictions mtc), fun t => rfl⟩,
    fun t₁ t₂ => ⟨rfl, rfl, rfl, rfl, rfl⟩⟩

/-- C10: an entity present in the test actuals but absent from the
forecast output is skipped (the `KeyError` is caught): the entire
evaluation result is as if the entity were not listed, so it has no entry
in `per_product_metrics` (not even an all-null one) and contributes to no
overall aggregate, while the run still completes and produces the report. -/
theorem c10_missing_forecast_entity_skipped (p : String)
    (l1 l2 : List String)
    (testActuals predictions : List (String × Series)) (mtc : List String)
    (evaluatedAt : String) (testSizeDays : Nat)
    (hpred : lookupKey predictions p = none) :
    evaluation_results evaluatedAt testSizeDays (l1 ++ p :: l2) testActuals
        predictions mtc =
      evaluation_results evaluatedAt testSizeDays (l1 ++ l2) testActuals
        predictions mtc ∧
    lookupKey (per_product_metrics (l1 ++ p :: l2) testActuals predictions
      mtc) p = none := by
  have hper : per_product_metrics (l1 ++ p :: l2) testActuals predictions
      mtc = per_product_metrics (l1 ++ l2) testActuals predictions mtc := by
    unfold per_product_metrics
    rw [List.filterMap_append, List.filterMap_append, List.filterMap_cons]
    simp only [hpred]
  refine ⟨?_, ?_⟩
  · unfold evaluation_results
    rw [hper]
  · rw [hper]
    unfold lookupKey
    rw [List.find?_eq_none.mpr]
    · rfl
    · intro x hx
      obtain ⟨-, pred, hp2, -⟩ := mem_per_product_metrics _ _ _ _ x hx
      simp only [beq_iff_eq]
      rintro rfl
      rw [hpred] at hp2
      exact Option.noConfusion hp2

/-- Witness for C10: with entity `B` present in the actuals but absent
from the predictions, the report is the one for the remaining entity `A`
alone and `B` has no entry. -/
theorem c10_missing_forecast_entity_skipped_witness :
    lookupKey ([("A", exampleForecast)] : List (String × Series)) "B" =
      none ∧
    evaluation_results "T" 3 ["B", "A"] [("B", [(1, 4)]), ("A", exampleActuals)]
        [("A", exampleForecast)] ["MAE"] =
      evaluation_results "T" 3 ["A"] [("B", [(1, 4)]), ("A", exampleActuals)]
        [("A", exampleForecast)] ["MAE"] ∧
    lookupKey (per_product_metrics ["B", "A"]
      [("B", [(1, 4)]), ("A", exampleActuals)] [("A", exampleForecast)]
      ["MAE"]) "B" = none := by
  have hpred : lookupKey ([("A", exampleForecast)] : List (String × Series))
      "B" = none := by
    simp [lookupKey]
  have h := c10_missing_forecast_entity_skipped "B" [] ["A"]
    [("B", [(1, 4)]), ("A", exampleActuals)] [("A", exampleForecast)]
    ["MAE"] "T" 3 hpred
  exact ⟨hpred, h.1, h.2⟩

/-- Counterexample to C6 as stated: entity `B` has actuals at timestamp 10
and a forecast at timestamp 20 only (empty alignment).  Its report entry
is NOT an all-null `MetricResult`: it has no entry at all in
`per_product_metrics`, which contains only the other entity `A`. -/
theorem c6_counterexample :
    lookupKey (per_product_metrics ["B", "A"]
      [("B", [(10, 5)]), ("A", exampleActuals)]
      [("B", [(20, 7)]), ("A", exampleForecast)] ["RMSE", "MAE"]) "B" =
        none ∧
    per_product_metrics ["B", "A"] [("B", [(10, 5)]), ("A", exampleActuals)]
      [("B", [(20, 7)]), ("A", exampleForecast)] ["RMSE", "MAE"] =
      [("A", ⟨some (some 1), some (some 1), none, none⟩)] := by
  have h : per_product_metrics ["B", "A"]
      [("B", [(10, 5)]), ("A", exampleActuals)]
      [("B", [(20, 7)]), ("A", exampleForecast)] ["RMSE", "MAE"] =
      [("A", ⟨some (some 1), some (some 1), none, none⟩)] := by
    simp [per_product_metrics, lookupKey, calculate_metrics, innerJoin,
      lookupTs, listMean, rmseVal, maeVal, mapeVal, naiveError, diffs,
      exampleActuals, exampleForecast, Metrics.nonempty]
    norm_num
  refine ⟨?_, h⟩
  rw [h]
  simp [lookupKey]

/-- C6 (amended): for every entity whose actuals and forecast share zero
timestamps, the run does not fail: a diagnostic is emitted and the entity
is omitted from `per_product_metrics` entirely (no entry is written, in
particular no all-null one), while scoring of the remaining entities
continues as if the entity were not listed. -/
theorem c6_empty_alignment_entity_omitted (p : String) (l1 l2 : List String)
    (testActuals predictions : List (String × Series)) (mtc : List String)
    (pred : Series) (hpred : lookupKey predictions p = some pred)
    (hempty : innerJoin ((lookupKey testActuals p).getD []) pred = []) :
    per_product_metrics (l1 ++ p :: l2) testActuals predictions mtc =
      per_product_metrics (l1 ++ l2) testActuals predictions mtc ∧
    lookupKey (per_product_metrics (l1 ++ p :: l2) testActuals predictions
      mtc) p = none := by
  have hnd := calculate_metrics_noData ((lookupKey testActuals p).getD [])
    pred mtc hempty
  constructor
  · unfold per_product_metrics
    rw [List.filterMap_append, List.filterMap_append, List.filterMap_cons]
    simp only [hpred, hnd]
  · unfold lookupKey
    rw [List.find?_eq_none.mpr]
    · rfl
    · intro x hx
      obtain ⟨-, pred2, hp2, hcalc⟩ := mem_per_product_metrics _ _ _ _ x hx
      simp only [beq_iff_eq]
      rintro rfl
      rw [hpred] at hp2
      obtain rfl : pred2 = pred := (Option.some.inj hp2).symm
      rw [hnd] at hcalc
      exact CalcResult.noConfusion hcalc

/-- Witness for the amended C6: the concrete counterexample inputs satisfy
the hypotheses, and there entity `B` is omitted while `A` is still
scored. -/
theorem c6_empty_alignment_entity_omitted_witness :
    lookupKey ([("B", [(20, 7)]), ("A", exampleForecast)] :
      List (String × Series)) "B" = some [(20, 7)] ∧
    innerJoin ((lookupKey ([("B", [(10, 5)]), ("A", exampleActuals)] :
      List (String × Series)) "B").getD []) [(20, 7)] = [] ∧
    per_product_metrics ["B", "A"] [("B", [(10, 5)]), ("A", exampleActuals)]
        [("B", [(20, 7)]), ("A", exampleForecast)] ["RMSE", "MAE"] =
      per_product_metrics ["A"] [("B", [(10, 5)]), ("A", exampleActuals)]
        [("B", [(20, 7)]), ("A", exampleForecast)] ["RMSE", "MAE"] := by
  have hpred : lookupKey ([("B", [(20, 7)]), ("A", exampleForecast)] :
      List (String × Series)) "B" = some [(20, 7)] := by
    simp [lookupKey]
  have hempty : innerJoin ((lookupKey ([("B", [(10, 5)]),
      ("A", exampleActuals)] : List (String × Series)) "B").getD [])
      [(20, 7)] = [] := by
    simp [innerJoin, lookupKey, lookupTs]
  exact ⟨hpred, hempty, (c6_empty_alignment_entity_omitted "B" [] ["A"]
    [("B", [(10, 5)]), ("A", exampleActuals)]
    [("B", [(20, 7)]), ("A", exampleForecast)] ["RMSE", "MAE"]
    [(20, 7)] hpred hempty).1⟩

/-- Counterexample to C5 as stated: the configuration requesting the
unknown metric name `FOO` is not rejected — no error is raised at any
point.  Per-entity scoring runs to completion (entity `A` gets its `MAE`),
and `FOO` is simply absent from the overall metrics. -/
theorem c5_counterexample :
    per_product_metrics ["A"] [("A", exampleActuals)] [("A", exampleForecast)]
      ["FOO", "MAE"] = [("A", ⟨none, some (some 1), none, none⟩)] ∧
    lookupKey (overall_metrics ["FOO", "MAE"]
      [("A", ⟨none, some (some 1), none, none⟩)]) "FOO" = none ∧
    lookupKey (overall_metrics ["FOO", "MAE"]
      [("A", ⟨none, some (some 1), none, none⟩)]) "MAE" =
        some ⟨1, 0, 1, 1⟩ := by
  refine ⟨?_, ?_, ?_⟩
  · simp [per_product_metrics, lookupKey, calculate_metrics, innerJoin,
      lookupTs, listMean, rmseVal, maeVal, mapeVal, naiveError, diffs,
      exampleActuals, exampleForecast, Metrics.nonempty]
    norm_num
  · simp [overall_metrics, dedupKeys, collectValues, Metrics.get, aggregate,
      lookupKey, listMean]
  · simp [overall_metrics, dedupKeys, collectValues, Metrics.get, aggregate,
      lookupKey, listMean]

/-- C5 (amended): a requested metric name outside
`{RMSE, MAE, MAPE, MASE}` is not rejected and raises no error at any
point; it is silently ignored: it is never a key of any per-entity metrics
dict, it collects no values, and it is absent from the overall metrics of
every run. -/
theorem c5_unknown_metric_silently_ignored (name : String)
    (hname : name ∉ (["RMSE", "MAE", "MAPE", "MASE"] : List String)) :
    (∀ m : Metrics, Metrics.get m name = none) ∧
    (∀ perProd : List (String × Metrics), collectValues perProd name = []) ∧
    (∀ (mtc : List String) (perProd : List (String × Metrics)),
      lookupKey (overall_metrics mtc perProd) name = none) := by
  simp only [List.mem_cons, List.not_mem_nil, or_false, not_or] at hname
  obtain ⟨h1, h2, h3, h4⟩ := hname
  have hget : ∀ m : Metrics, Metrics.get m name = none := by
    intro m
    unfold Metrics.get
    rw [if_neg h1, if_neg h2, if_neg h3, if_neg h4]
  have hcoll : ∀ perProd : List (String × Metrics),
      collectValues perProd name = [] := by
    intro perProd
    unfold collectValues
    rw [List.filterMap_eq_nil_iff]
    intro r hr
    rw [hget r.2]
    rfl
  refine ⟨hget, hcoll, ?_⟩
  intro mtc perProd
  by_cases hmem : name ∈ mtc
  · rw [lookupKey_overall_metrics mtc perProd name hmem, hcoll]
    rfl
  · exact lookupKey_filterMap_of_not_mem (dedupKeys mtc) _ name
      (fun hc => hmem ((mem_dedupKeys mtc name).mp hc))

/-- Witness for the amended C5: the name `FOO` is unknown, is no key of
the all-present metrics dict, and is absent from a concrete overall
dict. -/
theorem c5_unknown_metric_silently_ignored_witness :
    ("FOO" : String) ∉ (["RMSE", "MAE", "MAPE", "MASE"] : List String) ∧
    Metrics.get ⟨some (some 1), some (some 1), some none, some none⟩ "FOO" =
      none ∧
    lookupKey (overall_metrics ["FOO"]
      [("A", ⟨some (some 1), some (some 1), some none, some none⟩)]) "FOO" =
        none := by
  have h := c5_unknown_metric_silently_ignored "FOO" (by decide)
  exact ⟨by decide, h.1 _, h.2.2 _ _⟩

/-- Counterexample to C7 as stated: requesting `{RMSE, MASE}` (without
`MAE`) on an entity with two aligned points and a positive naive error
raises the `KeyError` from `metrics['MAE']`, which the per-product loop
catches — the entity is dropped entirely and no metric is reported for it,
although its `RMSE` was computable (requesting `{RMSE}` alone yields it). -/
theorem c7_counterexample :
    calculate_metrics [(1, 10), (2, 12)] [(1, 11), (2, 11)]
      ["RMSE", "MASE"] = .keyError ∧
    per_product_metrics ["A"] [("A", [(1, 10), (2, 12)])]
      [("A", [(1, 11), (2, 11)])] ["RMSE", "MASE"] = [] ∧
    (∃ m : Metrics, calculate_metrics [(1, 10), (2, 12)] [(1, 11), (2, 11)]
      ["RMSE"] = .ok m ∧ m.RMSE = some (some 1)) := by
  have hke : calculate_metrics [(1, 10), (2, 12)] [(1, 11), (2, 11)]
      ["RMSE", "MASE"] = .keyError := by
    simp [calculate_metrics, innerJoin, lookupTs, listMean, rmseVal, maeVal,
      mapeVal, naiveError, diffs]
    norm_num [abs]
  refine ⟨hke, ?_, ?_⟩
  · simp [per_product_metrics, lookupKey, hke]
  · refine ⟨⟨some (some 1), none, none, none⟩, ?_, rfl⟩
    simp [calculate_metrics, innerJoin, lookupTs, listMean, rmseVal, maeVal,
      mapeVal, naiveError, diffs]
    norm_num [abs]

/-- C7 (amended): provided `MAE` is requested whenever `MASE` is, metrics
are computed independently: scoring an entity never raises (no
`KeyError`), every requested known metric gets an entry (possibly null) in
a successful result regardless of which other metrics are requested or
null, and the per-product loop processes each entity independently
(splitting the product list splits the result). -/
theorem c7_metrics_independent (actuals forecast : Series)
    (mtc : List String) (hmm : "MASE" ∈ mtc → "MAE" ∈ mtc) :
    calculate_metrics actuals forecast mtc ≠ .keyError ∧
    (∀ name, name ∈ (["RMSE", "MAE", "MAPE", "MASE"] : List String) →
      name ∈ mtc → ∀ m, calculate_metrics actuals forecast mtc = .ok m →
        (Metrics.get m name).isSome) ∧
    (∀ (l1 l2 : List String)
      (testActuals predictions : List (String × Series)),
      per_product_metrics (l1 ++ l2) testActuals predictions mtc =
        per_product_metrics l1 testActuals predictions mtc ++
          per_product_metrics l2 testActuals predictions mtc) := by
  refine ⟨?_, ?_, ?_⟩
  · by_cases hne : innerJoin actuals forecast = []
    · rw [calculate_metrics_noData _ _ _ hne]
      simp
    · obtain ⟨m, hok, -⟩ := calculate_metrics_ok actuals forecast mtc hne hmm
      rw [hok]
      simp
  · intro name hknown hnmtc m hok
    obtain ⟨-, hr, hm, hp, -, hmss⟩ :=
      calculate_metrics_ok_inv actuals forecast mtc m hok
    simp only [List.mem_cons, List.not_mem_nil, or_false] at hknown
    rcases hknown with rfl | rfl | rfl | rfl
    · have hg : Metrics.get m "RMSE" = m.RMSE := by simp [Metrics.get]
      rw [hg, hr, if_pos hnmtc]
      rfl
    · have hg : Metrics.get m "MAE" = m.MAE := by simp [Metrics.get]
      rw [hg, hm, if_pos hnmtc]
      rfl
    · have hg : Metrics.get m "MAPE" = m.MAPE := by simp [Metrics.get]
      rw [hg, hp, if_pos hnmtc]
      rfl
    · have hg : Metrics.get m "MASE" = m.MASE := by simp [Metrics.get]
      rw [hg]
      exact hmss hnmtc
  · intro l1 l2 testActuals predictions
    unfold per_product_metrics
    rw [List.filterMap_append]

/-- Witness for the amended C7: with all four metrics requested (so `MAE`
accompanies `MASE`), scoring the example entity raises nothing and every
requested metric is present in its dict. -/
theorem c7_metrics_independent_witness :
    calculate_metrics exampleActuals exampleForecast
      ["MASE", "RMSE", "MAE", "MAPE"] ≠ .keyError := by
  exact (c7_metrics_independent exampleActuals exampleForecast
    ["MASE", "RMSE", "MAE", "MAPE"] (fun _ => by decide)).1

end ForecastEval
